import Mathlib

/-!
Verification of the scope-classification and on-air state machine of
`src/recording_watcher.rs` (struct `State` and its methods, plus the
event-handler glue in `start_watcher`).

Modelling choices:
* Rust `u32` ids are `Nat`; `u32::parse_value` is modelled by `parseU32`,
  which succeeds exactly on decimal strings (optionally `+`-signed) whose
  value fits in 32 bits, mirroring Rust's `str::parse::<u32>`.
* `HashSet<u32>` fields are `Finset ℕ`; `HashSet<String>` configuration
  sets are `List String` (they are only ever read via `contains`, which is
  exact string equality in both models).
* `HashMap<u32, String>` (the registry) is an association list with
  most-recent-entry-first lookup; `insert` conses, so lookup sees the
  newest binding for a key, matching `HashMap::insert` observationally.
* The `OnAirActor` is modelled by having each mutation return the list of
  hook calls it performs, in order; the Rust methods perform these calls
  inline instead of returning them.
* A Rust panic (from `.unwrap()` on `None`/`Err`) is modelled by the
  `LinkResult.panic` constructor / an `Option.none` result.
-/

/-- A hook invocation on the `OnAirActor` (`go_on_air` / `go_off_air`). -/
inductive HookCall
  | goOnAir
  | goOffAir
deriving DecidableEq, Repr

/-- An ordered string→string property bag (`ForeignDict`). -/
def PropBag := List (String × String)

/-- `ForeignDict::get`: first value stored under `key`, if any. -/
def dictGet (props : PropBag) (key : String) : Option String :=
  (List.find? (fun p => p.1 == key) props).map (fun p => p.2)

/-- `u32::parse_value` (Rust `str::parse::<u32>`): optional leading `+`,
then one or more ASCII digits, value below `2 ^ 32`. -/
def parseU32 (str : String) : Option Nat :=
  let cs :=
    match str.data with
    | '+' :: rest => rest
    | cs => cs
  if cs = [] then none
  else if cs.all Char.isDigit then
    let v := cs.foldl (fun acc c => acc * 10 + (c.toNat - 48)) 0
    if v < 2 ^ 32 then some v else none
  else none

/-- `u32::MAX`, the sentinel registry key. -/
def u32MAX : Nat := 2 ^ 32 - 1

/-- Lookup in the registry association list (`HashMap::get`). -/
def regLookup (reg : List (Nat × String)) (id : Nat) : Option String :=
  (List.find? (fun p => p.1 == id) reg).map (fun p => p.2)

/-- `get_input_node`: the `"link.input.node"` property, if present. -/
def get_input_node (props : PropBag) : Option String :=
  dictGet props "link.input.node"

/-- `get_output_node`: the `"link.output.node"` property, if present. -/
def get_output_node (props : PropBag) : Option String :=
  dictGet props "link.output.node"

/-- `get_all_names`: values of the keys `node.description`, `node.nick`,
`node.name`, probed in that order, missing keys skipped. -/
def get_all_names (props : PropBag) : List String :=
  List.filterMap (dictGet props) ["node.description", "node.nick", "node.name"]

/-- The `State<T>` struct of `recording_watcher.rs` (the actor field is
replaced by returning hook-call traces from the mutating methods). -/
structure State where
  devices_in_scope : List String
  devices_ignored : List String
  ids_in_scope : Finset Nat
  ids_ignored : Finset Nat
  active_links : Finset Nat
  on_air : Bool
  registry : List (Nat × String)
deriving DecidableEq

/-- `HashSet::is_empty` on a modelled id set. -/
def isEmptyB (t : Finset Nat) : Bool := t = ∅

namespace State

/-- `State::new`: empty id sets, `on_air = false`, registry holding the
sentinel entry `(u32::MAX, "unresolved")`. -/
def new (devices_in_scope devices_ignored : List String) : State :=
  { devices_in_scope := devices_in_scope
    devices_ignored := devices_ignored
    ids_in_scope := ∅
    ids_ignored := ∅
    active_links := ∅
    on_air := false
    registry := [(u32MAX, "unresolved")] }

/-- `State::is_link_in_scope`. -/
def is_link_in_scope (s : State) (output_node : Nat) : Bool :=
  output_node ∈ s.ids_in_scope

/-- `State::check_if_on_air`. -/
def check_if_on_air (s : State) : Bool := s.on_air

/-- `State::update_on_air`: recompute `target = !active_links.is_empty()`;
on a change set `on_air` and run exactly one hook, otherwise do nothing. -/
def update_on_air (s : State) : State × List HookCall :=
  let current_state := s.on_air
  let target_state := !(isEmptyB s.active_links)
  if current_state ≠ target_state then
    ({ s with on_air := target_state },
      if target_state then [HookCall.goOnAir] else [HookCall.goOffAir])
  else (s, [])

/-- Outcome of `State::add_link`: either a Rust panic (an `.unwrap()` on a
missing or unparseable endpoint property) or the new state plus the hook
calls performed. -/
inductive LinkResult
  | panic
  | ok (s : State) (hooks : List HookCall)
deriving DecidableEq

/-- `State::add_link`: unwraps and parses the input- and output-endpoint
properties (panicking on absence or parse failure), inserts the link id
into `active_links` when the output node is in scope and the input node is
not ignored, then runs `update_on_air`. -/
def add_link (s : State) (id : Nat) (props : PropBag) : LinkResult :=
  match (get_input_node props).bind parseU32 with
  | none => LinkResult.panic
  | some input_node =>
    match (get_output_node props).bind parseU32 with
    | none => LinkResult.panic
    | some output_node =>
      let s1 :=
        if output_node ∈ s.ids_in_scope then
          if input_node ∉ s.ids_ignored then
            { s with active_links := insert id s.active_links }
          else s
        else s
      let r := update_on_air s1
      LinkResult.ok r.1 r.2

/-- `State::add_node`: extract the alias list; if non-empty, record the
first alias as the registry name for `id` and insert `id` into
`ids_in_scope` / `ids_ignored` when any alias is contained in the
corresponding configured device-name list. -/
def add_node (s : State) (id : Nat) (props : PropBag) : State :=
  let node_names := get_all_names props
  if node_names ≠ [] then
    let primary_name := node_names.headI
    let s1 := { s with registry := (id, primary_name) :: s.registry }
    let s2 :=
      if node_names.any (fun name => s1.devices_in_scope.contains name) then
        { s1 with ids_in_scope := insert id s1.ids_in_scope }
      else s1
    let s3 :=
      if node_names.any (fun name => s2.devices_ignored.contains name) then
        { s2 with ids_ignored := insert id s2.ids_ignored }
      else s2
    s3
  else s

/-- `State::resolve_node_id`: registry lookup with fallback to the entry
stored under `u32::MAX`; an overall `none` models the (unreachable)
`.unwrap()` panic when even that entry is absent. -/
def resolve_node_id (s : State) (id : Nat) : Option String :=
  match regLookup s.registry id with
  | some name => some name
  | none => regLookup s.registry u32MAX

/-- `State::remove_link`: remove `id` from `active_links`, then run
`update_on_air`. -/
def remove_link (s : State) (id : Nat) : State × List HookCall :=
  update_on_air { s with active_links := s.active_links.erase id }

end State

/-- The three graph events consumed by the listener in `start_watcher`. -/
inductive Event
  | nodeAdded (id : Nat) (props : PropBag)
  | linkAdded (id : Nat) (props : PropBag)
  | globalRemoved (id : Nat)

/-- One listener callback of `start_watcher`: node events call `add_node`,
link events call `add_link` (propagating its panic as `none`), and a
global-removed event calls `remove_link` only when the id is currently a
member of `active_links`. -/
def step (s : State) (e : Event) : Option (State × List HookCall) :=
  match e with
  | Event.nodeAdded id props => some (s.add_node id props, [])
  | Event.linkAdded id props =>
    match s.add_link id props with
    | State.LinkResult.panic => none
    | State.LinkResult.ok s1 hooks => some (s1, hooks)
  | Event.globalRemoved id =>
    if id ∈ s.active_links then some (s.remove_link id) else some (s, [])

/-- Run a sequence of events from a state, stopping at a panic. -/
def runEvents (s : State) : List Event → Option State
  | [] => some s
  | e :: es =>
    match step s e with
    | none => none
    | some (s1, _) => runEvents s1 es

/-- The spec's core invariant: `OnAir == !ActiveLinks.is_empty()`. -/
def onAirInv (s : State) : Prop :=
  s.on_air = !(isEmptyB s.active_links)

instance (s : State) : Decidable (onAirInv s) := by
  unfold onAirInv; infer_instance

/-- The state `add_link` feeds to `update_on_air` once both endpoints have
been parsed: the link id is inserted exactly when the output node is in
scope and the input node is not ignored. -/
def linkTarget (s : State) (id i o : Nat) : State :=
  if o ∈ s.ids_in_scope ∧ i ∉ s.ids_ignored then
    { s with active_links := insert id s.active_links }
  else s

/-- Concrete event run used to witness C1. -/
def c1Events : List Event :=
  [Event.nodeAdded 10 [("node.description", "Headset")],
    Event.linkAdded 100 [("link.output.node", "10"), ("link.input.node", "20")],
    Event.globalRemoved 100]

/-- Final state of the C1 witness run. -/
def c1Final : State :=
  { devices_in_scope := ["Headset"], devices_ignored := [],
    ids_in_scope := {10}, ids_ignored := ∅, active_links := ∅,
    on_air := false, registry := [(10, "Headset"), (u32MAX, "unresolved")] }

/-- An on-air state used to witness C3. -/
def c3State : State :=
  { devices_in_scope := ["Mic"], devices_ignored := [], ids_in_scope := {1},
    ids_ignored := ∅, active_links := {100}, on_air := true,
    registry := [(u32MAX, "unresolved")] }

/-- The C3 witness state after one further in-scope link is added. -/
def c3After : State :=
  { devices_in_scope := ["Mic"], devices_ignored := [], ids_in_scope := {1},
    ids_ignored := ∅, active_links := insert 101 {100}, on_air := true,
    registry := [(u32MAX, "unresolved")] }

/-- A state with an in-scope output node and an ignored input node, used to
witness C4. -/
def c4State : State :=
  { devices_in_scope := [], devices_ignored := [], ids_in_scope := {1},
    ids_ignored := {2}, active_links := ∅, on_air := false, registry := [] }

theorem isEmptyB_eq_false {t : Finset Nat} : isEmptyB t = false ↔ t ≠ ∅ := by
  simp [isEmptyB]

theorem update_fst_active_links (s : State) :
    ((s.update_on_air).1).active_links = s.active_links := by
  simp only [State.update_on_air]
  split <;> rfl

theorem update_fst_ids_in_scope (s : State) :
    ((s.update_on_air).1).ids_in_scope = s.ids_in_scope := by
  simp only [State.update_on_air]
  split <;> rfl

theorem update_fst_ids_ignored (s : State) :
    ((s.update_on_air).1).ids_ignored = s.ids_ignored := by
  simp only [State.update_on_air]
  split <;> rfl

theorem update_fst_registry (s : State) :
    ((s.update_on_air).1).registry = s.registry := by
  simp only [State.update_on_air]
  split <;> rfl

theorem update_fst_on_air (s : State) :
    ((s.update_on_air).1).on_air = !(isEmptyB s.active_links) := by
  simp only [State.update_on_air]
  split
  · rfl
  · rename_i h
    exact not_not.mp h

theorem update_inv (s : State) : onAirInv (s.update_on_air).1 := by
  unfold onAirInv
  rw [update_fst_on_air, update_fst_active_links]

theorem update_eq_of_inv (s : State) (h : onAirInv s) :
    s.update_on_air = (s, []) := by
  have h2 : ¬(s.on_air ≠ !(isEmptyB s.active_links)) := not_not.mpr h
  simp only [State.update_on_air]
  rw [if_neg h2]

theorem add_node_nil (s : State) (id : Nat) (props : PropBag)
    (h : get_all_names props = []) : s.add_node id props = s := by
  simp [State.add_node, h]

theorem add_node_active_links (s : State) (id : Nat) (props : PropBag) :
    (s.add_node id props).active_links = s.active_links := by
  by_cases h : get_all_names props = [] <;>
    by_cases h1 : (∃ x ∈ get_all_names props, x ∈ s.devices_in_scope) <;>
    by_cases h2 : (∃ x ∈ get_all_names props, x ∈ s.devices_ignored) <;>
    simp [State.add_node, h, h1, h2]

theorem add_node_on_air (s : State) (id : Nat) (props : PropBag) :
    (s.add_node id props).on_air = s.on_air := by
  by_cases h : get_all_names props = [] <;>
    by_cases h1 : (∃ x ∈ get_all_names props, x ∈ s.devices_in_scope) <;>
    by_cases h2 : (∃ x ∈ get_all_names props, x ∈ s.devices_ignored) <;>
    simp [State.add_node, h, h1, h2]

theorem add_node_devices_in_scope (s : State) (id : Nat) (props : PropBag) :
    (s.add_node id props).devices_in_scope = s.devices_in_scope := by
  by_cases h : get_all_names props = [] <;>
    by_cases h1 : (∃ x ∈ get_all_names props, x ∈ s.devices_in_scope) <;>
    by_cases h2 : (∃ x ∈ get_all_names props, x ∈ s.devices_ignored) <;>
    simp [State.add_node, h, h1, h2]

theorem add_node_devices_ignored (s : State) (id : Nat) (props : PropBag) :
    (s.add_node id props).devices_ignored = s.devices_ignored := by
  by_cases h : get_all_names props = [] <;>
    by_cases h1 : (∃ x ∈ get_all_names props, x ∈ s.devices_in_scope) <;>
    by_cases h2 : (∃ x ∈ get_all_names props, x ∈ s.devices_ignored) <;>
    simp [State.add_node, h, h1, h2]

theorem add_node_ids_in_scope (s : State) (id : Nat) (props : PropBag) :
    (s.add_node id props).ids_in_scope =
      if get_all_names props ≠ [] ∧
          ∃ a ∈ get_all_names props, a ∈ s.devices_in_scope then
        insert id s.ids_in_scope
      else s.ids_in_scope := by
  by_cases h : get_all_names props = [] <;>
    by_cases h1 : (∃ x ∈ get_all_names props, x ∈ s.devices_in_scope) <;>
    by_cases h2 : (∃ x ∈ get_all_names props, x ∈ s.devices_ignored) <;>
    simp [State.add_node, h, h1, h2]

theorem add_node_ids_ignored (s : State) (id : Nat) (props : PropBag) :
    (s.add_node id props).ids_ignored =
      if get_all_names props ≠ [] ∧
          ∃ a ∈ get_all_names props, a ∈ s.devices_ignored then
        insert id s.ids_ignored
      else s.ids_ignored := by
  by_cases h : get_all_names props = [] <;>
    by_cases h1 : (∃ x ∈ get_all_names props, x ∈ s.devices_in_scope) <;>
    by_cases h2 : (∃ x ∈ get_all_names props, x ∈ s.devices_ignored) <;>
    simp [State.add_node, h, h1, h2]

theorem add_node_registry (s : State) (id : Nat) (props : PropBag) :
    (s.add_node id props).registry =
      if get_all_names props ≠ [] then
        (id, (get_all_names props).headI) :: s.registry
      else s.registry := by
  by_cases h : get_all_names props = [] <;>
    by_cases h1 : (∃ x ∈ get_all_names props, x ∈ s.devices_in_scope) <;>
    by_cases h2 : (∃ x ∈ get_all_names props, x ∈ s.devices_ignored) <;>
    simp [State.add_node, h, h1, h2]

theorem linkTarget_ids_in_scope (s : State) (id i o : Nat) :
    (linkTarget s id i o).ids_in_scope = s.ids_in_scope := by
  unfold linkTarget
  split <;> rfl

theorem linkTarget_ids_ignored (s : State) (id i o : Nat) :
    (linkTarget s id i o).ids_ignored = s.ids_ignored := by
  unfold linkTarget
  split <;> rfl

theorem linkTarget_registry (s : State) (id i o : Nat) :
    (linkTarget s id i o).registry = s.registry := by
  unfold linkTarget
  split <;> rfl

theorem linkTarget_on_air (s : State) (id i o : Nat) :
    (linkTarget s id i o).on_air = s.on_air := by
  unfold linkTarget
  split <;> rfl

theorem linkTarget_active_links (s : State) (id i o : Nat) :
    (linkTarget s id i o).active_links =
      if o ∈ s.ids_in_scope ∧ i ∉ s.ids_ignored then
        insert id s.active_links
      else s.active_links := by
  unfold linkTarget
  split <;> rfl

theorem add_link_panic_of_input {s : State} {id : Nat} {props : PropBag}
    (hi : (get_input_node props).bind parseU32 = none) :
    s.add_link id props = State.LinkResult.panic := by
  simp [State.add_link, hi]

theorem add_link_panic_of_output {s : State} {id : Nat} {props : PropBag}
    {i : Nat} (hi : (get_input_node props).bind parseU32 = some i)
    (ho : (get_output_node props).bind parseU32 = none) :
    s.add_link id props = State.LinkResult.panic := by
  simp [State.add_link, hi, ho]

theorem add_link_eq {s : State} {id : Nat} {props : PropBag} {i o : Nat}
    (hi : (get_input_node props).bind parseU32 = some i)
    (ho : (get_output_node props).bind parseU32 = some o) :
    s.add_link id props =
      State.LinkResult.ok ((linkTarget s id i o).update_on_air).1
        ((linkTarget s id i o).update_on_air).2 := by
  simp only [State.add_link, hi, ho]
  by_cases h1 : o ∈ s.ids_in_scope <;> by_cases h2 : i ∉ s.ids_ignored <;>
    simp [linkTarget, h1, h2]

theorem add_link_ok_elim {s : State} {id : Nat} {props : PropBag}
    {s' : State} {hooks : List HookCall}
    (hok : s.add_link id props = State.LinkResult.ok s' hooks) :
    ∃ i o, (get_input_node props).bind parseU32 = some i ∧
      (get_output_node props).bind parseU32 = some o ∧
      s' = ((linkTarget s id i o).update_on_air).1 ∧
      hooks = ((linkTarget s id i o).update_on_air).2 := by
  cases hi : (get_input_node props).bind parseU32 with
  | none =>
    rw [add_link_panic_of_input hi] at hok
    exact absurd hok (by simp)
  | some i =>
    cases ho : (get_output_node props).bind parseU32 with
    | none =>
      rw [add_link_panic_of_output hi ho] at hok
      exact absurd hok (by simp)
    | some o =>
      rw [add_link_eq hi ho] at hok
      injection hok with h1 h2
      exact ⟨i, o, rfl, rfl, h1.symm, h2.symm⟩

theorem add_link_ok_inv {s : State} {id : Nat} {props : PropBag}
    {s' : State} {hooks : List HookCall}
    (hok : s.add_link id props = State.LinkResult.ok s' hooks) :
    onAirInv s' := by
  obtain ⟨i, o, _, _, hs, _⟩ := add_link_ok_elim hok
  rw [hs]
  exact update_inv _

theorem remove_link_inv (s : State) (id : Nat) :
    onAirInv ((s.remove_link id).1) := by
  unfold State.remove_link
  exact update_inv _

theorem add_node_inv {s : State} (id : Nat) (props : PropBag)
    (h : onAirInv s) : onAirInv (s.add_node id props) := by
  unfold onAirInv
  rw [add_node_on_air, add_node_active_links]
  exact h

theorem step_inv {s : State} {e : Event} {s' : State} {hooks : List HookCall}
    (hinv : onAirInv s) (h : step s e = some (s', hooks)) : onAirInv s' := by
  cases e with
  | nodeAdded id props =>
    simp only [step, Option.some.injEq, Prod.mk.injEq] at h
    rw [← h.1]
    exact add_node_inv id props hinv
  | linkAdded id props =>
    simp only [step] at h
    cases hadd : s.add_link id props with
    | panic =>
      rw [hadd] at h
      exact absurd h (by simp)
    | ok s1 hk =>
      rw [hadd] at h
      simp only [Option.some.injEq, Prod.mk.injEq] at h
      rw [← h.1]
      exact add_link_ok_inv hadd
  | globalRemoved id =>
    simp only [step] at h
    split at h
    · simp only [Option.some.injEq] at h
      have h1 : (s.remove_link id).1 = s' := by rw [h]
      rw [← h1]
      exact remove_link_inv s id
    · simp only [Option.some.injEq, Prod.mk.injEq] at h
      rw [← h.1]
      exact hinv

theorem runEvents_inv :
    ∀ (evs : List Event) (s0 s : State), onAirInv s0 →
      runEvents s0 evs = some s → onAirInv s := by
  intro evs
  induction evs with
  | nil =>
    intro s0 s h0 h
    simp only [runEvents, Option.some.injEq] at h
    rw [← h]
    exact h0
  | cons e es ih =>
    intro s0 s h0 h
    simp only [runEvents] at h
    cases hst : step s0 e with
    | none =>
      rw [hst] at h
      exact absurd h (by simp)
    | some p =>
      obtain ⟨s1, hk⟩ := p
      rw [hst] at h
      exact ih s1 s (step_inv h0 hst) h

theorem new_inv (cfg_in cfg_ign : List String) :
    onAirInv (State.new cfg_in cfg_ign) := by
  simp [onAirInv, State.new, isEmptyB]

theorem remove_link_noop (t : State) (id : Nat) (hinv : onAirInv t)
    (h : t.active_links.erase id = t.active_links) :
    t.remove_link id = (t, []) := by
  unfold State.remove_link
  rw [h]
  exact update_eq_of_inv t hinv

theorem regLookup_cons_self (r : List (Nat × String)) (k : Nat) (v : String) :
    regLookup ((k, v) :: r) k = some v := by
  simp [regLookup]

theorem regLookup_cons_ne (r : List (Nat × String)) {k k' : Nat} (v : String)
    (h : k ≠ k') :
    regLookup ((k, v) :: r) k' = regLookup r k' := by
  simp [regLookup, List.find?_cons_of_neg, h]

theorem step_reg_max {s : State} {e : Event} {s' : State}
    {hooks : List HookCall} {v : String}
    (h : step s e = some (s', hooks))
    (hmax : regLookup s.registry u32MAX = some v)
    (hnot : ∀ id props, e = Event.nodeAdded id props → id ≠ u32MAX) :
    regLookup s'.registry u32MAX = some v := by
  cases e with
  | nodeAdded id props =>
    simp only [step, Option.some.injEq, Prod.mk.injEq] at h
    rw [← h.1, add_node_registry]
    split
    · rw [regLookup_cons_ne _ _ (hnot id props rfl)]
      exact hmax
    · exact hmax
  | linkAdded id props =>
    simp only [step] at h
    cases hadd : s.add_link id props with
    | panic =>
      rw [hadd] at h
      exact absurd h (by simp)
    | ok s1 hk =>
      rw [hadd] at h
      simp only [Option.some.injEq, Prod.mk.injEq] at h
      obtain ⟨i, o, _, _, hs, _⟩ := add_link_ok_elim hadd
      rw [← h.1, hs, update_fst_registry, linkTarget_registry]
      exact hmax
  | globalRemoved id =>
    simp only [step] at h
    split at h
    · simp only [Option.some.injEq] at h
      have h1 : (s.remove_link id).1 = s' := by rw [h]
      rw [← h1]
      unfold State.remove_link
      rw [update_fst_registry]
      exact hmax
    · simp only [Option.some.injEq, Prod.mk.injEq] at h
      rw [← h.1]
      exact hmax

theorem step_reg_max_some {s : State} {e : Event} {s' : State}
    {hooks : List HookCall}
    (h : step s e = some (s', hooks))
    (hmax : ∃ v, regLookup s.registry u32MAX = some v) :
    ∃ v, regLookup s'.registry u32MAX = some v := by
  obtain ⟨v, hv⟩ := hmax
  cases e with
  | nodeAdded id props =>
    simp only [step, Option.some.injEq, Prod.mk.injEq] at h
    rw [← h.1, add_node_registry]
    split
    · by_cases hid : id = u32MAX
      · subst hid
        exact ⟨(get_all_names props).headI, regLookup_cons_self _ _ _⟩
      · rw [regLookup_cons_ne _ _ hid]
        exact ⟨v, hv⟩
    · exact ⟨v, hv⟩
  | linkAdded id props =>
    simp only [step] at h
    cases hadd : s.add_link id props with
    | panic =>
      rw [hadd] at h
      exact absurd h (by simp)
    | ok s1 hk =>
      rw [hadd] at h
      simp only [Option.some.injEq, Prod.mk.injEq] at h
      obtain ⟨i, o, _, _, hs, _⟩ := add_link_ok_elim hadd
      rw [← h.1, hs, update_fst_registry, linkTarget_registry]
      exact ⟨v, hv⟩
  | globalRemoved id =>
    simp only [step] at h
    split at h
    · simp only [Option.some.injEq] at h
      have h1 : (s.remove_link id).1 = s' := by rw [h]
      rw [← h1]
      unfold State.remove_link
      rw [update_fst_registry]
      exact ⟨v, hv⟩
    · simp only [Option.some.injEq, Prod.mk.injEq] at h
      rw [← h.1]
      exact ⟨v, hv⟩

theorem runEvents_reg_max_some :
    ∀ (evs : List Event) (s0 s : State),
      (∃ v, regLookup s0.registry u32MAX = some v) →
      runEvents s0 evs = some s →
      ∃ v, regLookup s.registry u32MAX = some v := by
  intro evs
  induction evs with
  | nil =>
    intro s0 s h0 h
    simp only [runEvents, Option.some.injEq] at h
    rw [← h]
    exact h0
  | cons e es ih =>
    intro s0 s h0 h
    simp only [runEvents] at h
    cases hst : step s0 e with
    | none =>
      rw [hst] at h
      exact absurd h (by simp)
    | some p =>
      obtain ⟨s1, hk⟩ := p
      rw [hst] at h
      exact ih s1 s (step_reg_max_some hst h0) h

theorem runEvents_reg_max_unres :
    ∀ (evs : List Event) (s0 s : State),
      regLookup s0.registry u32MAX = some "unresolved" →
      (∀ id props, Event.nodeAdded id props ∈ evs → id ≠ u32MAX) →
      runEvents s0 evs = some s →
      regLookup s.registry u32MAX = some "unresolved" := by
  intro evs
  induction evs with
  | nil =>
    intro s0 s h0 hids h
    simp only [runEvents, Option.some.injEq] at h
    rw [← h]
    exact h0
  | cons e es ih =>
    intro s0 s h0 hids h
    simp only [runEvents] at h
    cases hst : step s0 e with
    | none =>
      rw [hst] at h
      exact absurd h (by simp)
    | some p =>
      obtain ⟨s1, hk⟩ := p
      rw [hst] at h
      have h1 : regLookup s1.registry u32MAX = some "unresolved" :=
        step_reg_max hst h0
          (fun id props heq =>
            hids id props (by rw [← heq]; exact List.mem_cons_self e es))
      exact ih s1 s h1
        (fun id props hm => hids id props (List.mem_cons_of_mem e hm)) h

theorem new_reg_max (cfg_in cfg_ign : List String) :
    regLookup (State.new cfg_in cfg_ign).registry u32MAX =
      some "unresolved" := by
  simp [State.new, regLookup]

/-- C1: starting from the initial state (`on_air = false`, `active_links`
empty), after every completed sequence of listener mutations, `OnAir`
equals "`ActiveLinks` is non-empty". -/
theorem claim_C1 (cfg_in cfg_ign : List String) (evs : List Event) (s : State)
    (hrun : runEvents (State.new cfg_in cfg_ign) evs = some s) :
    onAirInv s :=
  runEvents_inv evs _ s (new_inv cfg_in cfg_ign) hrun

/-- Witness for C1: a concrete node-added / link-added / removed run. -/
theorem claim_C1_witness :
    runEvents (State.new ["Headset"] []) c1Events = some c1Final ∧
    onAirInv c1Final :=
  ⟨by decide, claim_C1 ["Headset"] [] c1Events c1Final (by decide)⟩

/-- C2: the claim states that `add_link` reports a `MissingEndpoint` error
when an endpoint key is absent and a `MalformedEndpoint` error when an
endpoint value does not parse as a `u32`, leaving state unchanged and never
panicking; the code instead `.unwrap()`s and panics in both situations.
This theorem evaluates the code at the two failing inputs. -/
theorem claim_C2_panics :
    (State.new ["Mic"] []).add_link 1 ([] : PropBag) =
      State.LinkResult.panic ∧
    (State.new ["Mic"] []).add_link 2
        [("link.input.node", "5"), ("link.output.node", "abc")] =
      State.LinkResult.panic := by decide

/-- C3: the recomputation step fires a hook iff the recomputed target
`!active_links.is_empty()` differs from the prior `OnAir`, and then exactly
one hook — `go_on_air` when the target is true, `go_off_air` when false;
and a successful `add_link` performed while already on-air (in an
invariant-satisfying state) fires no hook at all. -/
theorem claim_C3 (s : State) :
    ((s.update_on_air).2 =
      if (!(isEmptyB s.active_links)) ≠ s.on_air then
        [if (!(isEmptyB s.active_links)) then HookCall.goOnAir
          else HookCall.goOffAir]
      else []) ∧
    ((s.update_on_air).2 ≠ [] ↔ (!(isEmptyB s.active_links)) ≠ s.on_air) ∧
    (∀ id props s' hooks, onAirInv s → s.on_air = true →
      s.add_link id props = State.LinkResult.ok s' hooks → hooks = []) := by
  have hsnd : (s.update_on_air).2 =
      if (!(isEmptyB s.active_links)) ≠ s.on_air then
        [if (!(isEmptyB s.active_links)) then HookCall.goOnAir
          else HookCall.goOffAir]
      else [] := by
    by_cases h : s.on_air = !(isEmptyB s.active_links)
    · rw [if_neg (fun hne => hne h.symm), update_eq_of_inv s h]
    · have hcond : (!(isEmptyB s.active_links)) ≠ s.on_air :=
        fun heq => h heq.symm
      rw [if_pos hcond]
      simp only [State.update_on_air]
      rw [if_pos h]
      split <;> rfl
  refine ⟨hsnd, ?_, ?_⟩
  · rw [hsnd]
    by_cases h : (!(isEmptyB s.active_links)) ≠ s.on_air
    · rw [if_pos h]
      simp [h]
    · rw [if_neg h]
      simp [h]
  · intro id props s' hooks hinv hon hok
    obtain ⟨i, o, hi, ho, hs, hhk⟩ := add_link_ok_elim hok
    have hbool : (!(isEmptyB s.active_links)) = true := by
      rw [← hinv]
      exact hon
    have hempty : isEmptyB s.active_links = false := by
      cases hb : isEmptyB s.active_links
      · rfl
      · rw [hb] at hbool
        simp at hbool
    have hLne : s.active_links ≠ ∅ := isEmptyB_eq_false.mp hempty
    have hTne : (linkTarget s id i o).active_links ≠ ∅ := by
      rw [linkTarget_active_links]
      split
      · exact Finset.insert_ne_empty id s.active_links
      · exact hLne
    have hTinv : onAirInv (linkTarget s id i o) := by
      unfold onAirInv
      rw [linkTarget_on_air, hon, isEmptyB_eq_false.mpr hTne]
      rfl
    rw [hhk, update_eq_of_inv _ hTinv]

/-- Witness for C3: adding a further active link while already on-air
fires no hook. -/
theorem claim_C3_witness :
    onAirInv c3State ∧ c3State.on_air = true ∧
    c3State.add_link 101
        [("link.input.node", "2"), ("link.output.node", "1")] =
      State.LinkResult.ok c3After [] ∧
    ([] : List HookCall) = [] :=
  ⟨by decide, by decide, by decide,
    (claim_C3 c3State).2.2 101
      [("link.input.node", "2"), ("link.output.node", "1")] c3After []
      (by decide) (by decide) (by decide)⟩

/-- C4: a successful `add_link` with parsed output id `o` and input id `i`
inserts the link id into `active_links` iff `o ∈ IdsInScope` and
`i ∉ IdsIgnored`; in every other successful case `active_links` is
unchanged and (in an invariant-satisfying state) `OnAir` is unchanged. -/
theorem claim_C4 (s : State) (id i o : Nat) (props : PropBag) (s' : State)
    (hooks : List HookCall)
    (hi : (get_input_node props).bind parseU32 = some i)
    (ho : (get_output_node props).bind parseU32 = some o)
    (hok : s.add_link id props = State.LinkResult.ok s' hooks)
    (hinv : onAirInv s) :
    (s'.active_links =
      if o ∈ s.ids_in_scope ∧ i ∉ s.ids_ignored then
        insert id s.active_links
      else s.active_links) ∧
    (¬(o ∈ s.ids_in_scope ∧ i ∉ s.ids_ignored) → s'.on_air = s.on_air) := by
  rw [add_link_eq hi ho] at hok
  injection hok with h1 h2
  constructor
  · rw [← h1, update_fst_active_links, linkTarget_active_links]
  · intro hc
    have hT : linkTarget s id i o = s := by
      unfold linkTarget
      rw [if_neg hc]
    rw [← h1, hT, update_eq_of_inv s hinv]

/-- Witness for C4: a link whose input endpoint is ignored is not inserted
and leaves `OnAir` unchanged. -/
theorem claim_C4_witness :
    (c4State.active_links =
      if 1 ∈ c4State.ids_in_scope ∧ 2 ∉ c4State.ids_ignored then
        insert 7 c4State.active_links
      else c4State.active_links) ∧
    (¬(1 ∈ c4State.ids_in_scope ∧ 2 ∉ c4State.ids_ignored) →
      c4State.on_air = c4State.on_air) :=
  claim_C4 c4State 7 2 1 [("link.input.node", "2"), ("link.output.node", "1")]
    c4State [] (by decide) (by decide) (by decide) (by decide)

/-- C5: for an `add_node` whose alias list is non-empty, the id is inserted
into `IdsInScope` iff some alias is contained in `devices_in_scope`, and
independently into `IdsIgnored` iff some alias is contained in
`devices_ignored`; containment is exact, case-sensitive string equality
(a lower-cased alias does not match a configured name). -/
theorem claim_C5 (s : State) (id : Nat) (props : PropBag)
    (h : get_all_names props ≠ []) :
    ((s.add_node id props).ids_in_scope =
      if ∃ a ∈ get_all_names props, a ∈ s.devices_in_scope then
        insert id s.ids_in_scope
      else s.ids_in_scope) ∧
    ((s.add_node id props).ids_ignored =
      if ∃ a ∈ get_all_names props, a ∈ s.devices_ignored then
        insert id s.ids_ignored
      else s.ids_ignored) ∧
    ((State.new ["Jabra Engage 75 Mono"] []).add_node 3
        [("node.name", "jabra engage 75 mono")]).ids_in_scope = ∅ := by
  refine ⟨?_, ?_, by decide⟩
  · rw [add_node_ids_in_scope]
    by_cases hc : ∃ a ∈ get_all_names props, a ∈ s.devices_in_scope
    · rw [if_pos hc, if_pos ⟨h, hc⟩]
    · rw [if_neg hc, if_neg (fun hand => hc hand.2)]
  · rw [add_node_ids_ignored]
    by_cases hc : ∃ a ∈ get_all_names props, a ∈ s.devices_ignored
    · rw [if_pos hc, if_pos ⟨h, hc⟩]
    · rw [if_neg hc, if_neg (fun hand => hc hand.2)]

/-- Witness for C5: a node whose alias is in both configured sets is
inserted into both id sets. -/
theorem claim_C5_witness :
    get_all_names [("node.name", "Mic")] ≠ [] ∧
    ((((State.new ["Mic"] ["Mic"]).add_node 9
        [("node.name", "Mic")]).ids_in_scope =
      if ∃ a ∈ get_all_names [("node.name", "Mic")],
          a ∈ (State.new ["Mic"] ["Mic"]).devices_in_scope then
        insert 9 (State.new ["Mic"] ["Mic"]).ids_in_scope
      else (State.new ["Mic"] ["Mic"]).ids_in_scope) ∧
    (((State.new ["Mic"] ["Mic"]).add_node 9
        [("node.name", "Mic")]).ids_ignored =
      if ∃ a ∈ get_all_names [("node.name", "Mic")],
          a ∈ (State.new ["Mic"] ["Mic"]).devices_ignored then
        insert 9 (State.new ["Mic"] ["Mic"]).ids_ignored
      else (State.new ["Mic"] ["Mic"]).ids_ignored) ∧
    ((State.new ["Jabra Engage 75 Mono"] []).add_node 3
        [("node.name", "jabra engage 75 mono")]).ids_in_scope = ∅) :=
  ⟨by decide,
    claim_C5 (State.new ["Mic"] ["Mic"]) 9 [("node.name", "Mic")] (by decide)⟩

/-- C6 counterexample: the claim says a later `add_node` for an
already-seen id never alters its scope/ignore membership; but `add_node`
re-evaluates classification on every call, so a second `add_node` for id 5
with a different alias inserts the already-classified id into
`IdsIgnored`. -/
theorem claim_C6_counterexample :
    5 ∈ ((State.new ["A"] ["B"]).add_node 5
        [("node.name", "A")]).ids_in_scope ∧
    5 ∉ ((State.new ["A"] ["B"]).add_node 5
        [("node.name", "A")]).ids_ignored ∧
    5 ∈ (((State.new ["A"] ["B"]).add_node 5
        [("node.name", "A")]).add_node 5
        [("node.name", "B")]).ids_ignored := by decide

/-- C6 (amended): no operation ever removes an id from `IdsInScope` or
`IdsIgnored` — both sets grow monotonically under every listener event. -/
theorem claim_C6 (s : State) (e : Event) (s' : State) (hooks : List HookCall)
    (h : step s e = some (s', hooks)) :
    s.ids_in_scope ⊆ s'.ids_in_scope ∧ s.ids_ignored ⊆ s'.ids_ignored := by
  cases e with
  | nodeAdded id props =>
    simp only [step, Option.some.injEq, Prod.mk.injEq] at h
    rw [← h.1]
    constructor
    · rw [add_node_ids_in_scope]
      split
      · exact Finset.subset_insert id s.ids_in_scope
      · exact Finset.Subset.refl _
    · rw [add_node_ids_ignored]
      split
      · exact Finset.subset_insert id s.ids_ignored
      · exact Finset.Subset.refl _
  | linkAdded id props =>
    simp only [step] at h
    cases hadd : s.add_link id props with
    | panic =>
      rw [hadd] at h
      exact absurd h (by simp)
    | ok s1 hk =>
      rw [hadd] at h
      simp only [Option.some.injEq, Prod.mk.injEq] at h
      obtain ⟨i, o, _, _, hs, _⟩ := add_link_ok_elim hadd
      rw [← h.1, hs]
      constructor
      · rw [update_fst_ids_in_scope, linkTarget_ids_in_scope]
      · rw [update_fst_ids_ignored, linkTarget_ids_ignored]
  | globalRemoved id =>
    simp only [step] at h
    split at h
    · simp only [Option.some.injEq] at h
      have h1 : (s.remove_link id).1 = s' := by rw [h]
      rw [← h1]
      unfold State.remove_link
      constructor
      · rw [update_fst_ids_in_scope]
      · rw [update_fst_ids_ignored]
    · simp only [Option.some.injEq, Prod.mk.injEq] at h
      rw [← h.1]
      exact ⟨Finset.Subset.refl _, Finset.Subset.refl _⟩

/-- Witness for C6 (amended) at a concrete removal event. -/
theorem claim_C6_witness :
    (State.new [] []).ids_in_scope ⊆ (State.new [] []).ids_in_scope ∧
    (State.new [] []).ids_ignored ⊆ (State.new [] []).ids_ignored :=
  claim_C6 (State.new [] []) (Event.globalRemoved 3) (State.new [] []) []
    (by decide)

/-- C7 counterexample: the claim says `resolve` of an unseen id always
returns the sentinel "unresolved"; but a node added with id `u32::MAX`
overwrites the sentinel registry entry, after which an unseen id resolves
to that node's name instead. -/
theorem claim_C7_counterexample :
    ((State.new [] []).add_node u32MAX
        [("node.description", "Mic")]).resolve_node_id 7 = some "Mic" ∧
    ((State.new [] []).add_node u32MAX
        [("node.description", "Mic")]).resolve_node_id 7 ≠
      some "unresolved" := by decide

/-- C7 (amended): on every reachable state, `resolve` succeeds (never hits
the unwrap panic) and returns the registry's name for a present id; for an
absent id it returns the registry entry stored under `u32::MAX`, which is
the sentinel "unresolved" provided no node with id `u32::MAX` was added. -/
theorem claim_C7 (cfg_in cfg_ign : List String) (evs : List Event)
    (s : State) (id : Nat)
    (hrun : runEvents (State.new cfg_in cfg_ign) evs = some s) :
    (∃ name, s.resolve_node_id id = some name) ∧
    ((∀ props, Event.nodeAdded u32MAX props ∉ evs) →
      s.resolve_node_id id =
        some ((regLookup s.registry id).getD "unresolved")) := by
  constructor
  · obtain ⟨v, hv⟩ :=
      runEvents_reg_max_some evs _ s ⟨_, new_reg_max cfg_in cfg_ign⟩ hrun
    unfold State.resolve_node_id
    cases hl : regLookup s.registry id with
    | some n => exact ⟨n, rfl⟩
    | none => exact ⟨v, hv⟩
  · intro hno
    have hunres :=
      runEvents_reg_max_unres evs _ s (new_reg_max cfg_in cfg_ign)
        (fun nid props hmem heq => hno props (heq ▸ hmem)) hrun
    unfold State.resolve_node_id
    cases hl : regLookup s.registry id with
    | some n => rfl
    | none => exact hunres

/-- Witness for C7 (amended): a run that never adds id `u32::MAX`. -/
theorem claim_C7_witness :
    ((State.new [] []).add_node 5 [("node.name", "X")]).resolve_node_id 7 =
      some
        ((regLookup
            ((State.new [] []).add_node 5
              [("node.name", "X")]).registry 7).getD "unresolved") :=
  (claim_C7 [] [] [Event.nodeAdded 5 [("node.name", "X")]]
      ((State.new [] []).add_node 5 [("node.name", "X")]) 7 (by decide)).2
    (by
      intro props hmem
      simp only [List.mem_singleton] at hmem
      injection hmem with h1 h2
      exact absurd h1 (by decide))

/-- C8: aliases are the values of `node.description`, `node.nick`,
`node.name` probed in that order; an empty alias list changes no state at
all, and otherwise the first alias becomes the registry's primary name for
the id, overwriting any previous registry entry. -/
theorem claim_C8 (s : State) (id : Nat) (props : PropBag) :
    (get_all_names props = [] → s.add_node id props = s) ∧
    (∀ a rest, get_all_names props = a :: rest →
      regLookup (s.add_node id props).registry id = some a) ∧
    (∀ v, dictGet props "node.description" = some v →
      (get_all_names props).head? = some v) := by
  refine ⟨add_node_nil s id props, ?_, ?_⟩
  · intro a rest hnames
    rw [add_node_registry, if_pos (by rw [hnames]; simp)]
    rw [hnames]
    exact regLookup_cons_self s.registry id a
  · intro v hv
    simp [get_all_names, List.filterMap_cons, hv]

/-- Witness for C8: `node.nick` is the primary name when `node.description`
is absent, overwriting nothing but shadowing the sentinel. -/
theorem claim_C8_witness :
    get_all_names [("node.nick", "Nick"), ("node.name", "Name")] =
      "Nick" :: ["Name"] ∧
    regLookup ((State.new [] []).add_node 4
        [("node.nick", "Nick"), ("node.name", "Name")]).registry 4 =
      some "Nick" :=
  ⟨by decide,
    (claim_C8 (State.new [] []) 4
        [("node.nick", "Nick"), ("node.name", "Name")]).2.1 "Nick" ["Name"]
      (by decide)⟩

/-- C9: `remove_link` removes the id from `active_links` when present and
is a no-op on `active_links` otherwise; a second `remove_link` of the same
id returns the state unchanged and fires no hook. -/
theorem claim_C9 (s : State) (id : Nat) :
    (s.remove_link id).1.active_links = s.active_links.erase id ∧
    (s.remove_link id).1.remove_link id = ((s.remove_link id).1, []) := by
  have hlinks : (s.remove_link id).1.active_links =
      s.active_links.erase id := by
    unfold State.remove_link
    rw [update_fst_active_links]
  refine ⟨hlinks, ?_⟩
  exact remove_link_noop _ id (remove_link_inv s id)
    (by
      rw [hlinks]
      exact Finset.erase_eq_self.mpr (Finset.not_mem_erase id s.active_links))

/-- C10: `add_node` leaves `active_links`, `on_air` and the configured
device sets unchanged and fires no hook; only the registry and the two id
sets may change. -/
theorem claim_C10 (s : State) (id : Nat) (props : PropBag) :
    (s.add_node id props).active_links = s.active_links ∧
    (s.add_node id props).on_air = s.on_air ∧
    (s.add_node id props).devices_in_scope = s.devices_in_scope ∧
    (s.add_node id props).devices_ignored = s.devices_ignored ∧
    step s (Event.nodeAdded id props) = some (s.add_node id props, []) :=
  ⟨add_node_active_links s id props, add_node_on_air s id props,
    add_node_devices_in_scope s id props, add_node_devices_ignored s id props,
    rfl⟩
